import Mathlib

/-!
A shallow embedding of the maroowell.com route worker
(`src/unnamed/part_002`, with the older variant in `src/worker.js`):
the string-normalization helpers, the color-derivation functions, the
route-enrichment pipeline, the soft-delete handler and the vendor search
handler, together with theorems settling the frozen claims about them.

Strings are modelled as Lean `String`s processed code-point-wise (the
source data is BMP text, where a UTF-16 code unit and a code point
coincide); JS numbers that occur only as finite values are modelled as
`Rat`; 32-bit wrap-around is made explicit with `% 2 ^ 32`.
-/

namespace Maroowell

/-- Code points removed by the JS `String.prototype.trim` (ECMA WhiteSpace
and LineTerminator sets). -/
def jsSpaceCodes : List Nat :=
  [0x09, 0x0A, 0x0B, 0x0C, 0x0D, 0x20, 0xA0, 0x1680, 0x2028, 0x2029,
   0x202F, 0x205F, 0x3000, 0xFEFF]

/-- Character-level model of the JS whitespace test used by `trim`. -/
def jsIsSpace (c : Char) : Bool :=
  decide (c.toNat ∈ jsSpaceCodes ∨ (0x2000 ≤ c.toNat ∧ c.toNat ≤ 0x200A))

/-- Trimming on the underlying character list: drop whitespace from the
front, then from the back. -/
def jsTrimList (l : List Char) : List Char :=
  ((l.dropWhile jsIsSpace).reverse.dropWhile jsIsSpace).reverse

/-- Model of JS `String.prototype.trim`. -/
def jsTrim (s : String) : String := ⟨jsTrimList s.data⟩

/-- Model of `safeTrim` from `part_002`: `String(v ?? "").trim()`, where the
JS value is a string or null/undefined (`none`). -/
def safeTrim (v : Option String) : String := jsTrim (v.getD "")

/-- Character test of the JS regular expression digit class `\d` = `[0-9]`. -/
def jsIsDigit (c : Char) : Bool := 48 ≤ c.toNat && c.toNat ≤ 57

/-- Model of `digitsOnly` from `part_002`:
`safeTrim(v).replace(/\D/g, "")`. -/
def digitsOnly (s : String) : String := ⟨(jsTrimList s.data).filter jsIsDigit⟩

/-- Model of `normalizeBusinessNumber` from `part_002`: a value with exactly
ten digits is reformatted `3-2-5` with hyphens; anything else is returned
trimmed. -/
def normalizeBusinessNumber (v : String) : String :=
  if (digitsOnly v).data.length = 10 then
    (⟨(digitsOnly v).data.take 3⟩ : String) ++ "-"
      ++ (⟨((digitsOnly v).data.drop 3).take 2⟩ : String)
      ++ "-" ++ (⟨(digitsOnly v).data.drop 5⟩ : String)
  else jsTrim v

theorem dropWhile_dropWhile (p : Char → Bool) (l : List Char) :
    (l.dropWhile p).dropWhile p = l.dropWhile p := by
  induction l with
  | nil => rfl
  | cons a t ih =>
      by_cases h : p a
      · simp [List.dropWhile_cons, h, ih]
      · simp [List.dropWhile_cons, h]

theorem head_dropWhile_false (p : Char → Bool) (l : List Char) (x : Char)
    (h : (l.dropWhile p).head? = some x) : p x = false := by
  induction l with
  | nil => simp [List.dropWhile] at h
  | cons a t ih =>
      by_cases hp : p a
      · exact ih (by simpa [List.dropWhile_cons, hp] using h)
      · simp [List.dropWhile_cons, hp] at h
        simp [← h, hp]

theorem dropWhile_suffix_of (p : Char → Bool) (l : List Char) :
    l.dropWhile p <:+ l := by
  induction l with
  | nil => exact List.suffix_refl _
  | cons a t ih =>
      by_cases hp : p a
      · simpa [List.dropWhile_cons, hp] using ih.trans (List.suffix_cons a t)
      · simp [List.dropWhile_cons, hp]

theorem dropWhile_eq_self_of (p : Char → Bool) (l : List Char)
    (h : ∀ c ∈ l, p c = false) : l.dropWhile p = l := by
  cases l with
  | nil => rfl
  | cons a t => simp [List.dropWhile_cons, h a (by simp)]

theorem jsTrimList_no_space (l : List Char)
    (h : ∀ c ∈ l, jsIsSpace c = false) : jsTrimList l = l := by
  unfold jsTrimList
  rw [dropWhile_eq_self_of _ _ h, dropWhile_eq_self_of, List.reverse_reverse]
  intro c hc
  exact h c (by simpa using hc)

theorem jsTrimList_idem (l : List Char) :
    jsTrimList (jsTrimList l) = jsTrimList l := by
  have key : (jsTrimList l).dropWhile jsIsSpace = jsTrimList l := by
    cases ht : jsTrimList l with
    | nil => rfl
    | cons x xs =>
        have hpref : jsTrimList l <+:
            (l.dropWhile jsIsSpace) := by
          have hsuf := dropWhile_suffix_of jsIsSpace
            ((l.dropWhile jsIsSpace).reverse)
          unfold jsTrimList
          exact List.reverse_suffix.mp (by simpa using hsuf)
        rw [ht] at hpref
        obtain ⟨r, hr⟩ := hpref
        have hhead : (l.dropWhile jsIsSpace).head? = some x := by
          rw [← hr]; rfl
        have hx : jsIsSpace x = false := head_dropWhile_false _ _ _ hhead
        simp [List.dropWhile_cons, hx]
  unfold jsTrimList at key ⊢
  rw [key, List.reverse_reverse, dropWhile_dropWhile]

theorem jsTrim_idem (s : String) : jsTrim (jsTrim s) = jsTrim s := by
  unfold jsTrim
  exact congrArg String.mk (jsTrimList_idem s.data)

theorem digitsOnly_jsTrim (s : String) : digitsOnly (jsTrim s) = digitsOnly s := by
  unfold digitsOnly jsTrim
  exact congrArg String.mk (congrArg (List.filter jsIsDigit) (jsTrimList_idem s.data))

/-- Every character of a filtered-digits list is a digit and no character of
the hyphenated rendering is whitespace. -/
theorem hyphenated_no_space (d1 d2 d3 : List Char)
    (h1 : ∀ c ∈ d1, jsIsDigit c = true) (h2 : ∀ c ∈ d2, jsIsDigit c = true)
    (h3 : ∀ c ∈ d3, jsIsDigit c = true) :
    ∀ c ∈ d1 ++ '-' :: (d2 ++ '-' :: d3), jsIsSpace c = false := by
  intro c hc
  have hdig : jsIsDigit c = true ∨ c = '-' := by
    simp only [List.mem_append, List.mem_cons] at hc
    rcases hc with h | h | h | h | h
    · exact Or.inl (h1 c h)
    · exact Or.inr h
    · exact Or.inl (h2 c h)
    · exact Or.inr h
    · exact Or.inl (h3 c h)
  rcases hdig with h | h
  · have hc' : 48 ≤ c.toNat ∧ c.toNat ≤ 57 := by
      simpa [jsIsDigit] using h
    simp only [jsIsSpace, jsSpaceCodes, decide_eq_false_iff_not, List.mem_cons,
      List.not_mem_nil, or_false, not_or]
    omega
  · subst h; decide

theorem digits_filter_digits (d : List Char) (h : ∀ c ∈ d, jsIsDigit c = true) :
    d.filter jsIsDigit = d :=
  List.filter_eq_self.mpr (by intro a ha; exact h a ha)

/-- C10 helper: re-normalizing the hyphenated 3-2-5 rendering of a ten-digit
string gives it back unchanged. -/
theorem normalize_hyphenated (d : String) (hd : ∀ c ∈ d.data, jsIsDigit c = true)
    (hlen : d.data.length = 10) :
    normalizeBusinessNumber
      ((⟨d.data.take 3⟩ : String) ++ "-" ++ (⟨(d.data.drop 3).take 2⟩ : String)
        ++ "-" ++ (⟨d.data.drop 5⟩ : String)) =
      (⟨d.data.take 3⟩ : String) ++ "-" ++ (⟨(d.data.drop 3).take 2⟩ : String)
        ++ "-" ++ (⟨d.data.drop 5⟩ : String) := by
  set d1 := d.data.take 3 with hd1
  set d2 := (d.data.drop 3).take 2 with hd2
  set d3 := d.data.drop 5 with hd3
  have h1 : ∀ c ∈ d1, jsIsDigit c = true := fun c hc => hd c (List.mem_of_mem_take hc)
  have h2 : ∀ c ∈ d2, jsIsDigit c = true := fun c hc =>
    hd c (List.mem_of_mem_drop (List.mem_of_mem_take hc))
  have h3 : ∀ c ∈ d3, jsIsDigit c = true := fun c hc => hd c (List.mem_of_mem_drop hc)
  have hdata :
      ((⟨d1⟩ : String) ++ "-" ++ (⟨d2⟩ : String) ++ "-" ++ (⟨d3⟩ : String)).data
        = d1 ++ '-' :: (d2 ++ '-' :: d3) := by
    simp [String.data_append]
  have hsplit : d1 ++ d2 ++ d3 = d.data := by
    have hdd : d2 ++ d3 = d.data.drop 3 := by
      rw [hd2, hd3]
      have : d.data.drop 5 = (d.data.drop 3).drop 2 := by
        rw [List.drop_drop]
      rw [this, List.take_append_drop]
    rw [List.append_assoc, hdd, hd1, List.take_append_drop]
  have hfil : (d1 ++ '-' :: (d2 ++ '-' :: d3)).filter jsIsDigit = d.data := by
    have e1 := digits_filter_digits d1 h1
    have e2 := digits_filter_digits d2 h2
    have e3 := digits_filter_digits d3 h3
    have hm : jsIsDigit '-' = false := by decide
    simp only [List.filter_append, List.filter_cons, hm, Bool.false_eq_true,
      if_false, e1, e2, e3]
    rw [← List.append_assoc]
    exact hsplit
  have hdo :
      digitsOnly ((⟨d1⟩ : String) ++ "-" ++ (⟨d2⟩ : String) ++ "-" ++ (⟨d3⟩ : String))
        = ⟨d.data⟩ := by
    unfold digitsOnly
    rw [hdata, jsTrimList_no_space _ (hyphenated_no_space d1 d2 d3 h1 h2 h3), hfil]
  unfold normalizeBusinessNumber
  rw [hdo]
  rw [if_pos hlen]

/-- C10: the business-number normalizer is idempotent, and a ten-digit input
is rendered in the hyphenated 3-2-5 form. -/
theorem C10_normalizeBusinessNumber_idem (s : String) :
    normalizeBusinessNumber (normalizeBusinessNumber s) = normalizeBusinessNumber s ∧
    ((digitsOnly s).data.length = 10 →
      normalizeBusinessNumber s =
        (⟨(digitsOnly s).data.take 3⟩ : String) ++ "-"
          ++ (⟨((digitsOnly s).data.drop 3).take 2⟩ : String) ++ "-"
          ++ (⟨(digitsOnly s).data.drop 5⟩ : String)) := by
  constructor
  · by_cases hlen : (digitsOnly s).data.length = 10
    · have hdig : ∀ c ∈ (digitsOnly s).data, jsIsDigit c = true := by
        intro c hc
        exact List.of_mem_filter hc
      have hform : normalizeBusinessNumber s =
          (⟨(digitsOnly s).data.take 3⟩ : String) ++ "-"
            ++ (⟨((digitsOnly s).data.drop 3).take 2⟩ : String) ++ "-"
            ++ (⟨(digitsOnly s).data.drop 5⟩ : String) := by
        unfold normalizeBusinessNumber
        rw [if_pos hlen]
      rw [hform]
      exact normalize_hyphenated (digitsOnly s) hdig hlen
    · have hform : normalizeBusinessNumber s = jsTrim s := by
        unfold normalizeBusinessNumber
        rw [if_neg hlen]
      rw [hform]
      have hdo : digitsOnly (jsTrim s) = digitsOnly s := digitsOnly_jsTrim s
      unfold normalizeBusinessNumber
      rw [hdo]
      rw [if_neg hlen]
      exact jsTrim_idem s
  · intro hlen
    unfold normalizeBusinessNumber
    rw [if_pos hlen]

/-- C10 witness: a concrete already-hyphenated ten-digit value is a fixed
point, and the ten-digit hypothesis of the second conjunct holds there. -/
theorem C10_witness :
    normalizeBusinessNumber (normalizeBusinessNumber "123-45-67890")
        = normalizeBusinessNumber "123-45-67890" ∧
    normalizeBusinessNumber "123-45-67890" =
      (⟨(digitsOnly "123-45-67890").data.take 3⟩ : String) ++ "-"
        ++ (⟨((digitsOnly "123-45-67890").data.drop 3).take 2⟩ : String) ++ "-"
        ++ (⟨(digitsOnly "123-45-67890").data.drop 5⟩ : String) :=
  ⟨(C10_normalizeBusinessNumber_idem "123-45-67890").1,
   (C10_normalizeBusinessNumber_idem "123-45-67890").2 (by decide)⟩

/-- Signed 32-bit wrap of an integer (the JS `| 0` coercion and the result
range of a 32-bit shift). -/
def toInt32 (z : ℤ) : ℤ := (z + 2 ^ 31) % 2 ^ 32 - 2 ^ 31

/-- One step of the rolling hash inside `generateColor` (part_002):
`h = (h << 5) - h + charCode; h |= 0`. The shift wraps to 32 bits before
the subtraction, and the final bitwise-or wraps the sum. -/
def hashStep (h : ℤ) (c : Nat) : ℤ := toInt32 (toInt32 (h * 32) - h + c)

/-- The rolling hash of `generateColor` (part_002) over a whole string. -/
def jsHash (s : String) : ℤ := s.data.foldl (fun h ch => hashStep h ch.toNat) 0

/-- The fixed 20-color palette of `generateColor` (part_002). -/
def COLOR_PALETTE : List String :=
  ["#00C2FF", "#FF4D6D", "#FFD166", "#06D6A0", "#A78BFA",
   "#F97316", "#22C55E", "#E11D48", "#3B82F6", "#F59E0B",
   "#14B8A6", "#8B5CF6", "#84CC16", "#EC4899", "#0EA5E9",
   "#EF4444", "#10B981", "#FBBF24", "#6366F1", "#FB7185"]

/-- Model of `generateColor` from part_002 (palette mode): hash the seed,
then index the palette at `Math.abs(h) % palette.length`. `String(code || "")`
sends null/undefined and `""` to `""`. -/
def generateColor (code : Option String) : String :=
  COLOR_PALETTE.getD ((jsHash (code.getD "")).natAbs % COLOR_PALETTE.length) ""

namespace WorkerJS

/-- Model of `fnv1a32` from worker.js, kept as the unsigned 32-bit
representative (the xor and `Math.imul` act on the same bit pattern whether
read signed or unsigned, and the final `>>> 0` reads it unsigned). -/
def fnv1a32 (s : String) : Nat :=
  s.data.foldl (fun h c => ((h ^^^ c.toNat) * 0x01000193) % 2 ^ 32) 0x811c9dc5

/-- JS `Math.max(0, Math.min(100, x))`. -/
def clamp100 (x : ℚ) : ℚ := max 0 (min 100 x)

/-- Floor-based remainder on rationals. For a nonnegative dividend it agrees
with the JS `%` operator, and the double remainder in `hslToRgb`
(`((h % 360) + 360) % 360`) collapses to a single floor-based remainder. -/
def fmod (a b : ℚ) : ℚ := a - b * ⌊a / b⌋

/-- Model of `hslToRgb` from worker.js over exact rationals. -/
def hslToRgb (h s l : ℚ) : ℤ × ℤ × ℤ :=
  let hh := fmod h 360
  let ss := clamp100 s / 100
  let ll := clamp100 l / 100
  let c := (1 - |2 * ll - 1|) * ss
  let x := c * (1 - |fmod (hh / 60) 2 - 1|)
  let m := ll - c / 2
  let rgb1 : ℚ × ℚ × ℚ :=
    if hh < 60 then (c, x, 0)
    else if hh < 120 then (x, c, 0)
    else if hh < 180 then (0, c, x)
    else if hh < 240 then (0, x, c)
    else if hh < 300 then (x, 0, c)
    else (c, 0, x)
  (round ((rgb1.1 + m) * 255), round ((rgb1.2.1 + m) * 255),
   round ((rgb1.2.2 + m) * 255))

/-- A single lowercase hex digit, as produced by JS `toString(16)`. -/
def hexDigit (n : Nat) : Char := if n < 10 then Char.ofNat (48 + n) else Char.ofNat (87 + n)

/-- Model of `toHex2` from worker.js for byte values:
`n.toString(16).padStart(2, "0")`. -/
def toHex2 (n : Nat) : String :=
  if n < 16 then "0" ++ String.singleton (hexDigit n)
  else String.singleton (hexDigit (n / 16)) ++ String.singleton (hexDigit (n % 16))

/-- Model of `rgbToHex` from worker.js. -/
def rgbToHex (r g b : ℤ) : String := "#" ++ toHex2 r.toNat ++ toHex2 g.toNat ++ toHex2 b.toNat

/-- Model of `generateColor` from worker.js (HSL mode): FNV-1a hash of the
seed, hue from the hash modulo 360, saturation 58..72 and lightness 46..57
from higher hash bits, converted through `hslToRgb` and `rgbToHex`. -/
def generateColor (seed : Option String) : String :=
  let h := fnv1a32 (seed.getD "")
  let sat : Nat := 58 + (h / 2 ^ 8) % 15
  let light : Nat := 46 + (h / 2 ^ 16) % 12
  let rgb := hslToRgb ((h % 360 : Nat) : ℚ) (sat : ℚ) (light : ℚ)
  rgbToHex rgb.1 rgb.2.1 rgb.2.2

end WorkerJS

/-- C8: for every non-empty seed, both embedded color derivations (the
palette mode of part_002 and the HSL mode of worker.js) are deterministic:
two runs on the same seed return the identical value, the functions
depending on nothing but the seed. -/
theorem C8_generateColor_deterministic (s : String) (_h : s ≠ "") :
    generateColor (some s) = generateColor (some s) ∧
    WorkerJS.generateColor (some s) = WorkerJS.generateColor (some s) :=
  ⟨rfl, rfl⟩

/-- C8 witness: the determinism theorem instantiated at the concrete
non-empty seed `"A"`. -/
theorem C8_witness :
    generateColor (some "A") = generateColor (some "A") ∧
    WorkerJS.generateColor (some "A") = WorkerJS.generateColor (some "A") :=
  C8_generateColor_deterministic "A" (by decide)

/-- C9: the palette-mode color derivation is total on every string-or-null
seed, including null/undefined and the empty string: the palette index is
always in bounds, the result is a member of the palette, and every palette
entry is a 7-character string starting with a hash mark. -/
theorem C9_generateColor_valid (code : Option String) :
    generateColor code ∈ COLOR_PALETTE ∧ (generateColor code).length = 7 ∧
    (generateColor code).data.head? = some '#' := by
  have hlt : (jsHash (code.getD "")).natAbs % COLOR_PALETTE.length
      < COLOR_PALETTE.length :=
    Nat.mod_lt _ (by decide)
  have hmem : generateColor code ∈ COLOR_PALETTE := by
    unfold generateColor
    rw [List.getD_eq_getElem?_getD, List.getElem?_eq_getElem hlt]
    exact List.getElem_mem hlt
  have hall : ∀ c ∈ COLOR_PALETTE, c.length = 7 ∧ c.data.head? = some '#' := by
    decide
  exact ⟨hmem, (hall _ hmem).1, (hall _ hmem).2⟩

/-- A JS value as it occurs in a polygon/center slot of a row: null or
undefined, a string, a number, a boolean, or a parsed structure (array or
object, whose content no handler inspects and which is therefore carried as
an abstract payload). -/
inductive JsVal where
  | vnull
  | vstr (s : String)
  | vnum (q : ℚ)
  | vbool (b : Bool)
  | vobj (payload : Nat)
deriving DecidableEq, Repr

/-- A JS value in a numeric slot (stored coordinates): null/undefined, a
finite number, or a string carried together with the finite value `Number`
would convert it to (`none` when that conversion is NaN or infinite). -/
inductive NumVal where
  | nnull
  | nnum (q : ℚ)
  | nstr (s : String) (numOf : Option ℚ)
deriving DecidableEq, Repr

/-- Model of `parseMaybeJson` from part_002, parametrized by the platform
JSON parser `jp` (`JSON.parse`, with `none` standing for a thrown parse
error): null and non-string non-object values yield the fallback, objects
pass through, and strings are parsed with the fallback on failure. -/
def parseMaybeJson (jp : String → Option JsVal) (v fallback : JsVal) : JsVal :=
  match v with
  | JsVal.vnull => fallback
  | JsVal.vobj p => JsVal.vobj p
  | JsVal.vstr s => (jp s).getD fallback
  | _ => fallback

/-- Model of `parseMaybeNumber` from part_002: null/undefined and the empty
string give `none`, a number passes through, and any other string gives the
finite value of `Number(s)` if there is one. -/
def parseMaybeNumber (v : NumVal) : Option ℚ :=
  match v with
  | NumVal.nnull => none
  | NumVal.nnum q => some q
  | NumVal.nstr s numOf => if s = "" then none else numOf

/-- JS `a || b` on string-or-null values: null/undefined and `""` are falsy. -/
def jsOrStr (a b : Option String) : Option String :=
  match a with
  | none => b
  | some s => if s = "" then b else some s

/-- JS `a ?? b` on string-or-null values: only null/undefined falls through. -/
def jsNullish (a b : Option String) : Option String :=
  match a with
  | none => b
  | some s => some s

/-- JS truthiness of a string-or-null value. -/
def strTruthy (v : Option String) : Bool :=
  match v with
  | none => false
  | some s => s ≠ ""

/-- A route row (a `subsubroutes` record as the worker sees it), with the
fields the enrichment pipeline reads or writes. `Option String` slots are
string-or-null, coordinate slots are `NumVal`, the polygon slot a `JsVal`. -/
structure RouteRow where
  camp : Option String := none
  code : Option String := none
  full_code : Option String := none
  color : Option String := none
  polygon_wgs84 : JsVal := JsVal.vnull
  camp_name : Option String := none
  route_code : Option String := none
  vendor_business_number : Option String := none
  vendor_business_number_1w : Option String := none
  vendor_business_number_2w : Option String := none
  vendor_name_1w : Option String := none
  vendor_1w_name : Option String := none
  vendor_name_2w : Option String := none
  vendor_2w_name : Option String := none
  delivery_location_name : Option String := none
  delivery_location_address : Option String := none
  delivery_location_lat : NumVal := NumVal.nnull
  delivery_location_lng : NumVal := NumVal.nnull
deriving DecidableEq, Repr

/-- The seed `applyRouteDerivedFields` (part_002) hands to `generateColor`:
the trimmed `full_code || code`, with no contribution from `camp`. -/
def part002ColorKey (row : RouteRow) : String := safeTrim (jsOrStr row.full_code row.code)

/-- First statement of `applyRouteDerivedFields` (part_002): derive `color`
from the trimmed `full_code || code` when that is non-empty and no color is
set yet. -/
def apColorStep (row : RouteRow) : RouteRow :=
  if part002ColorKey row ≠ "" ∧ strTruthy row.color = false then
    { row with color := some (generateColor (some (part002ColorKey row))) }
  else row

/-- Second statement of `applyRouteDerivedFields` (part_002): a string
polygon is replaced by its parse, with null as the fallback. -/
def apPolygonStep (jp : String → Option JsVal) (row : RouteRow) : RouteRow :=
  match row.polygon_wgs84 with
  | JsVal.vstr s =>
      { row with polygon_wgs84 := parseMaybeJson jp (JsVal.vstr s) JsVal.vnull }
  | _ => row

/-- Third statement of `applyRouteDerivedFields` (part_002): backfill the
`camp_name` alias from `camp`. -/
def apCampNameStep (row : RouteRow) : RouteRow :=
  if strTruthy row.camp_name = false ∧ strTruthy row.camp = true then
    { row with camp_name := row.camp }
  else row

/-- Fourth statement of `applyRouteDerivedFields` (part_002): backfill the
`route_code` alias from `full_code`. -/
def apRouteCodeStep (row : RouteRow) : RouteRow :=
  if strTruthy row.route_code = false ∧ strTruthy row.full_code = true then
    { row with route_code := row.full_code }
  else row

/-- Model of `applyRouteDerivedFields` from part_002 on a non-null row,
parametrized by the platform JSON parser: its four statements in source
order. -/
def applyRouteDerivedFieldsRow (jp : String → Option JsVal) (row : RouteRow) : RouteRow :=
  apRouteCodeStep (apCampNameStep (apPolygonStep jp (apColorStep row)))

/-- Model of `applyRouteDerivedFields`, including its early return on a
null row. -/
def applyRouteDerivedFields (jp : String → Option JsVal) :
    Option RouteRow → Option RouteRow :=
  Option.map (applyRouteDerivedFieldsRow jp)

namespace WorkerJS

/-- The slice of a route row that the color step of worker.js
`enrichRoutes` touches. -/
structure WRow where
  camp : Option String := none
  code : Option String := none
  full_code : Option String := none
  color : Option String := none
deriving DecidableEq, Repr

/-- The trimmed full code of worker.js `enrichRoutes`:
`String(row.full_code ?? row.code ?? "").trim()`. -/
def wFullCode (row : WRow) : String :=
  jsTrim ((jsNullish row.full_code row.code).getD "")

/-- The seed worker.js `enrichRoutes` hands to `generateColor`:
the trimmed camp and the trimmed full code joined by a bar. -/
def colorKey (row : WRow) : String := safeTrim row.camp ++ "|" ++ wFullCode row

/-- The color step of worker.js `enrichRoutes` (its line 317): whenever the
trimmed full code is non-empty the color is recomputed from the camp-and-code
key, overwriting any stored or cached value. -/
def applyColor (row : WRow) : WRow :=
  if wFullCode row ≠ "" then
    { row with color := some (generateColor (some (colorKey row))) }
  else row

end WorkerJS

/-- A concrete row in camp `A` with full code `X` and no stored color. -/
def c1RowA : RouteRow := { camp := some "A", full_code := some "X" }

/-- A concrete row in camp `B` with the same full code `X` and no stored
color. -/
def c1RowB : RouteRow := { camp := some "B", full_code := some "X" }

/-- C1 counterexample: in part_002 the derivation key contains no camp
component, so two rows with the same `full_code` but different camps are fed
the identical key and end up with the identical derived color, against the
claim that their colors come from different keys. -/
theorem C1_counterexample :
    c1RowA.camp ≠ c1RowB.camp ∧ c1RowA.full_code = c1RowB.full_code ∧
    part002ColorKey c1RowA = part002ColorKey c1RowB ∧
    (applyRouteDerivedFieldsRow (fun _ => none) c1RowA).color
      = (applyRouteDerivedFieldsRow (fun _ => none) c1RowB).color ∧
    (applyRouteDerivedFieldsRow (fun _ => none) c1RowA).color
      = some (generateColor (some "X")) := by
  exact ⟨by decide, rfl, rfl, rfl, by decide⟩

/-- C1 amended: in worker.js `enrichRoutes` the derived color is a pure
function of the pair (trimmed camp, trimmed full code), and two rows with
the same full code but different trimmed camps get different keys; in
part_002 `applyRouteDerivedFields` the key is the trimmed
`full_code || code` alone, so two rows with the same key and unset colors
receive the same color regardless of camp. -/
theorem C1_color_key_amended :
    (∀ r1 r2 : WorkerJS.WRow, safeTrim r1.camp = safeTrim r2.camp →
      WorkerJS.wFullCode r1 = WorkerJS.wFullCode r2 → WorkerJS.wFullCode r1 ≠ "" →
      (WorkerJS.applyColor r1).color = (WorkerJS.applyColor r2).color) ∧
    (∀ r1 r2 : WorkerJS.WRow, safeTrim r1.camp ≠ safeTrim r2.camp →
      WorkerJS.wFullCode r1 = WorkerJS.wFullCode r2 →
      WorkerJS.colorKey r1 ≠ WorkerJS.colorKey r2) ∧
    (∀ (r : RouteRow) (c : Option String),
      part002ColorKey { r with camp := c } = part002ColorKey r) ∧
    (∀ (jp : String → Option JsVal) (r1 r2 : RouteRow),
      part002ColorKey r1 = part002ColorKey r2 → part002ColorKey r1 ≠ "" →
      strTruthy r1.color = false → strTruthy r2.color = false →
      (applyRouteDerivedFieldsRow jp r1).color
        = (applyRouteDerivedFieldsRow jp r2).color) := by
  refine ⟨?_, ?_, ?_, ?_⟩
  · intro r1 r2 hcamp hfc hne
    unfold WorkerJS.applyColor WorkerJS.colorKey
    rw [if_pos hne, if_pos (hfc ▸ hne), hcamp, hfc]
  · intro r1 r2 hcamp hfc hkey
    apply hcamp
    unfold WorkerJS.colorKey at hkey
    have hdata := congrArg String.data hkey
    simp only [String.data_append, List.append_assoc] at hdata
    have := List.append_cancel_right (hfc ▸ hdata)
    exact congrArg String.mk this
  · intro r c
    unfold part002ColorKey
    rfl
  · intro jp r1 r2 hkey hne h1 h2
    have hc : ∀ r : RouteRow,
        (applyRouteDerivedFieldsRow jp r).color = (apColorStep r).color := by
      intro r
      unfold applyRouteDerivedFieldsRow
      have h4 : ∀ x : RouteRow, (apRouteCodeStep x).color = x.color := by
        intro x; unfold apRouteCodeStep; split <;> rfl
      have h3 : ∀ x : RouteRow, (apCampNameStep x).color = x.color := by
        intro x; unfold apCampNameStep; split <;> rfl
      have h2' : ∀ x : RouteRow, (apPolygonStep jp x).color = x.color := by
        intro x; unfold apPolygonStep; split <;> rfl
      rw [h4, h3, h2']
    rw [hc r1, hc r2]
    unfold apColorStep
    rw [if_pos ⟨hne, h1⟩, if_pos ⟨hkey ▸ hne, h2⟩, hkey]

/-- C1 amended witness: the amended statement instantiated at concrete rows,
discharging every hypothesis there. -/
theorem C1_amended_witness :
    (WorkerJS.applyColor { camp := some " A", full_code := some "X" }).color
      = (WorkerJS.applyColor { camp := some "A ", full_code := some "X " }).color ∧
    WorkerJS.colorKey ({ camp := some "A", full_code := some "X" } : WorkerJS.WRow)
      ≠ WorkerJS.colorKey { camp := some "B", full_code := some "X" } ∧
    part002ColorKey { c1RowB with camp := some "A" } = part002ColorKey c1RowB ∧
    (applyRouteDerivedFieldsRow (fun _ => none) c1RowA).color
      = (applyRouteDerivedFieldsRow (fun _ => none)
          { camp := some "B", full_code := none, code := some "X" }).color :=
  ⟨C1_color_key_amended.1 _ _ (by decide) (by decide) (by decide),
   C1_color_key_amended.2.1 _ _ (by decide) (by decide),
   C1_color_key_amended.2.2.1 c1RowB (some "A"),
   C1_color_key_amended.2.2.2 (fun _ => none) _ _ (by decide) (by decide)
     (by decide) (by decide)⟩

/-- A vendor record as the worker reads it. -/
structure VendorRow where
  id : Option ℤ := none
  business_number : Option String := none
  name : Option String := none
deriving DecidableEq, Repr

/-- A camp record as the worker reads it. -/
structure CampRow where
  id : Option ℤ := none
  camp : Option String := none
  code : Option String := none
  address : Option String := none
  latitude : NumVal := NumVal.nnull
  longitude : NumVal := NumVal.nnull
  mb_camp : Option String := none
deriving DecidableEq, Repr

/-- The upstream world one request runs against: the outcome of each
supabase fetch the handlers can issue (an `Except.error` models a thrown
upstream error) and the platform JSON parser. -/
structure UpstreamEnv where
  routeRows : Except String (List (Option RouteRow))
  vendorFetch : List String → Except String (List VendorRow)
  campFetch : String → Except String (List CampRow)
  vendorQuery : String × String → Except String (List VendorRow)
  vendorList : Nat → Except String (List VendorRow)
  jsonParse : String → Option JsVal

/-- Insertion-ordered set insert (a JS `Set.add`). -/
def insertIfAbsent (acc : List String) (s : String) : List String :=
  if s ∈ acc then acc else acc ++ [s]

/-- The `bnSet` loop of `fetchVendorNameMap` (part_002): for each collected
business number add the raw trimmed form, the hyphen-normalized form and the
digits-only form. -/
def buildBnSet (businessNumbers : List String) : List String :=
  businessNumbers.foldl (fun acc v =>
    if jsTrim v = "" then acc
    else
      (fun acc1 =>
        (fun acc2 =>
          if digitsOnly (jsTrim v) ≠ "" then insertIfAbsent acc2 (digitsOnly (jsTrim v))
          else acc2)
        (if normalizeBusinessNumber (jsTrim v) ≠ "" then
          insertIfAbsent acc1 (normalizeBusinessNumber (jsTrim v)) else acc1))
      (insertIfAbsent acc (jsTrim v))) []

/-- The vendor-name map: insertion-ordered bindings, later `Map.set` calls
shadowing earlier ones. A value of `none` is a stored null name. -/
abbrev NameMap := List (String × Option String)

/-- JS `Map.get`: `none` is `undefined` (key absent). -/
def mapGet (m : NameMap) (k : String) : Option (Option String) :=
  (m.reverse.find? (fun kv => kv.1 == k)).map (fun kv => kv.2)

/-- The map-building loop of `fetchVendorNameMap` (part_002): bind the raw,
normalized and digits-only forms of each returned business number to the
trimmed name (null when empty). -/
def buildVendorNameMap (rows : List VendorRow) : NameMap :=
  rows.foldl (fun m row =>
    if safeTrim row.business_number = "" then m
    else
      (fun name =>
        (fun m1 =>
          (fun m2 =>
            if digitsOnly (safeTrim row.business_number) ≠ "" then
              m2 ++ [(digitsOnly (safeTrim row.business_number), name)]
            else m2)
          (if normalizeBusinessNumber (safeTrim row.business_number) ≠ "" then
            m1 ++ [(normalizeBusinessNumber (safeTrim row.business_number), name)]
          else m1))
        (m ++ [(safeTrim row.business_number, name)]))
      (if safeTrim row.name = "" then none else some (safeTrim row.name))) []

/-- Model of `fetchVendorNameMap` from part_002: no upstream call when no
business number was collected, otherwise one batch fetch over the first 200
variants; an upstream error propagates (there is no catch here). -/
def fetchVendorNameMap (env : UpstreamEnv) (businessNumbers : List String) :
    Except String NameMap :=
  if (buildBnSet businessNumbers).isEmpty then Except.ok []
  else
    match env.vendorFetch ((buildBnSet businessNumbers).take 200) with
    | Except.error e => Except.error e
    | Except.ok rows => Except.ok (buildVendorNameMap rows)

/-- The first-wave business number of a row:
`normalizeBusinessNumber(row.vendor_business_number_1w ?? row.vendor_business_number)`. -/
def rowBn1 (r : RouteRow) : String :=
  normalizeBusinessNumber
    ((jsNullish r.vendor_business_number_1w r.vendor_business_number).getD "")

/-- The second-wave business number of a row. -/
def rowBn2 (r : RouteRow) : String :=
  normalizeBusinessNumber (r.vendor_business_number_2w.getD "")

/-- The business-number collection loop of `enrichRowsWithVendorNames`
(part_002): null rows are skipped, empty numbers are not pushed. -/
def collectBns (rows : List (Option RouteRow)) : List String :=
  rows.foldl (fun acc row =>
    match row with
    | none => acc
    | some r =>
        (fun acc1 => if rowBn2 r ≠ "" then acc1 ++ [rowBn2 r] else acc1)
        (if rowBn1 r ≠ "" then acc ++ [rowBn1 r] else acc)) []

/-- Collapse of JS truthiness on a `Map.get` result: only a present,
non-null, non-empty name survives. -/
def truthyName (v : Option (Option String)) : Option String :=
  match v with
  | some (some s) => if s = "" then none else some s
  | _ => none

/-- The name resolution of one business number:
`nameMap.get(bn) || nameMap.get(digitsOnly(bn))`, collapsed to the value the
following truthiness test acts on. -/
def lookupVendorName (nm : NameMap) (bn : String) : Option String :=
  match truthyName (mapGet nm bn) with
  | some s => some s
  | none => truthyName (mapGet nm (digitsOnly bn))

/-- The per-row write-back of `enrichRowsWithVendorNames` (part_002): set
both first-wave name aliases when a name resolved, and both second-wave
aliases likewise. -/
def applyVendorNames (nm : NameMap) (r : RouteRow) : RouteRow :=
  (fun r1 =>
    match (fun bn2 => if bn2 = "" then none else lookupVendorName nm bn2) (rowBn2 r) with
    | some s => { r1 with vendor_name_2w := some s, vendor_2w_name := some s }
    | none => r1)
  (match (fun bn1 => if bn1 = "" then none else lookupVendorName nm bn1) (rowBn1 r) with
   | some s => { r with vendor_name_1w := some s, vendor_1w_name := some s }
   | none => r)

/-- Model of `enrichRowsWithVendorNames` from part_002: early return on an
empty batch, one vendor-name fetch whose error propagates, then the per-row
write-back; list length and order come from `List.map`. -/
def enrichRowsWithVendorNames (env : UpstreamEnv) (rows : List (Option RouteRow)) :
    Except String (List (Option RouteRow)) :=
  if rows.isEmpty then Except.ok rows
  else
    match fetchVendorNameMap env (collectBns rows) with
    | Except.error e => Except.error e
    | Except.ok nm => Except.ok (rows.map (Option.map (applyVendorNames nm)))

/-- Character-wise model of JS `toLowerCase`. -/
def jsToLower (s : String) : String := ⟨s.data.map Char.toLower⟩

/-- Model of `normalizeCampKey` from part_002: trim and lowercase. -/
def normalizeCampKey (v : Option String) : String := jsToLower (safeTrim v)

/-- The camp index type: normalized `mb_camp` key to camp record, insertion
ordered, first occurrence winning. -/
abbrev CampIndex := List (String × CampRow)

/-- The `byMbCamp` loop of `loadCampIndex` (part_002): skip rows with an
empty key or an already-bound key. -/
def campIndexOf (rows : List CampRow) : CampIndex :=
  rows.foldl (fun m row =>
    if normalizeCampKey row.mb_camp = ""
        ∨ (m.find? (fun kv => kv.1 == normalizeCampKey row.mb_camp)).isSome then m
    else m ++ [(normalizeCampKey row.mb_camp, row)]) []

/-- Model of `loadCampIndex` from part_002: the camps fetch is wrapped in a
catch, a thrown error degrading to the empty row list, then the first-wins
index is built. -/
def loadCampIndex (env : UpstreamEnv) (campName : String) : CampIndex :=
  match env.campFetch campName with
  | Except.error _ => campIndexOf []
  | Except.ok rows => campIndexOf rows

/-- The address write of `hydrateRouteRowsWithCamps` (part_002) for a
matched camp record: the camp address overwrites whenever it trims
non-empty (the slot was already reset to null). -/
def hydAddrStep (m : CampRow) (r : RouteRow) : RouteRow :=
  if safeTrim m.address ≠ "" then
    { r with delivery_location_address := some (safeTrim m.address) }
  else r

/-- JS test `row.delivery_location_lat == null || row.delivery_location_lat === ""`. -/
def latLngUnset : NumVal → Bool
  | NumVal.nnull => true
  | NumVal.nnum _ => false
  | NumVal.nstr s _ => s = ""

/-- The latitude write of `hydrateRouteRowsWithCamps` (part_002): only
backfilled when the row's own value is null or the empty string. -/
def hydLatStep (m : CampRow) (r : RouteRow) : RouteRow :=
  match parseMaybeNumber m.latitude with
  | some q =>
      if latLngUnset r.delivery_location_lat then
        { r with delivery_location_lat := NumVal.nnum q }
      else r
  | none => r

/-- The longitude write of `hydrateRouteRowsWithCamps` (part_002). -/
def hydLngStep (m : CampRow) (r : RouteRow) : RouteRow :=
  match parseMaybeNumber m.longitude with
  | some q =>
      if latLngUnset r.delivery_location_lng then
        { r with delivery_location_lng := NumVal.nnum q }
      else r
  | none => r

/-- The matched-camp write-back of `hydrateRouteRowsWithCamps` (part_002):
address, then latitude, then longitude. -/
def hydrateApplyCamp (m : CampRow) (r : RouteRow) : RouteRow :=
  hydLngStep m (hydLatStep m (hydAddrStep m r))

/-- The per-row body of `hydrateRouteRowsWithCamps` (part_002): with a
non-empty delivery-location name the stored address is reset to null, and a
camp record matched under the normalized name is written back. -/
def hydrateRow (env : UpstreamEnv) (r : RouteRow) : RouteRow :=
  if safeTrim r.delivery_location_name = "" then r
  else if normalizeCampKey (some (safeTrim r.delivery_location_name)) = "" then
    { r with delivery_location_address := none }
  else
    match (loadCampIndex env (safeTrim r.camp)).find?
        (fun kv => kv.1 == normalizeCampKey (some (safeTrim r.delivery_location_name))) with
    | some kv => hydrateApplyCamp kv.2 { r with delivery_location_address := none }
    | none => { r with delivery_location_address := none }

/-- Model of `hydrateRouteRowsWithCamps` from part_002. The source memoizes
`loadCampIndex` per camp in a request-local map; `loadCampIndex` is a pure
function of the environment and the camp name, so the memoized loop treats
each row independently. Thrown camp fetches are caught inside
`loadCampIndex`, so this step never throws. -/
def hydrateRouteRowsWithCamps (env : UpstreamEnv) (rows : List (Option RouteRow)) :
    List (Option RouteRow) :=
  if rows.isEmpty then rows else rows.map (Option.map (hydrateRow env))

/-- The enrichment pipeline of `handleRouteGet` (part_002): derived fields,
vendor names, camp hydration, in source order. -/
def routeEnrichPipeline (env : UpstreamEnv) (rows : List (Option RouteRow)) :
    Except String (List (Option RouteRow)) :=
  match enrichRowsWithVendorNames env (rows.map (applyRouteDerivedFields env.jsonParse)) with
  | Except.error e => Except.error e
  | Except.ok out => Except.ok (hydrateRouteRowsWithCamps env out)

/-- The observable outcome of a `/route` GET: a 400 validation answer, an
error answer produced by the top-level catch from a thrown upstream error,
or the 200 answer with the enriched rows. -/
inductive RouteGetResult where
  | badRequest (msg : String)
  | errorResp (msg : String)
  | ok (rows : List (Option RouteRow))
deriving DecidableEq, Repr

/-- Model of `handleRouteGet` from part_002. The `code` and `mode`
parameters shape only the upstream query, whose outcome `env.routeRows`
abstracts; a thrown primary fetch or a thrown enrichment step becomes the
error response of the top-level catch. -/
def handleRouteGet (env : UpstreamEnv) (camp _code _mode : Option String) : RouteGetResult :=
  if safeTrim camp = "" then RouteGetResult.badRequest "camp is required"
  else
    match env.routeRows with
    | Except.error e => RouteGetResult.errorResp e
    | Except.ok rows =>
        match routeEnrichPipeline env rows with
        | Except.error e => RouteGetResult.errorResp e
        | Except.ok out => RouteGetResult.ok out

theorem hydrateRows_length (env : UpstreamEnv) (l : List (Option RouteRow)) :
    (hydrateRouteRowsWithCamps env l).length = l.length := by
  unfold hydrateRouteRowsWithCamps
  split
  · rfl
  · simp

theorem enrich_ok_of_vendorFetch_ok (env : UpstreamEnv) (vrows : List VendorRow)
    (hv : ∀ l, env.vendorFetch l = Except.ok vrows) (rs : List (Option RouteRow)) :
    ∃ out, enrichRowsWithVendorNames env rs = Except.ok out ∧ out.length = rs.length := by
  unfold enrichRowsWithVendorNames
  by_cases he : rs.isEmpty
  · exact ⟨rs, by rw [if_pos he], rfl⟩
  · rw [if_neg he]
    unfold fetchVendorNameMap
    by_cases hb : (buildBnSet (collectBns rs)).isEmpty
    · rw [if_pos hb]
      exact ⟨_, rfl, by simp⟩
    · rw [if_neg hb, hv]
      exact ⟨_, rfl, by simp⟩

theorem isEmpty_false_ne_nil (l : List (Option RouteRow)) (h : ¬l.isEmpty = true) :
    l ≠ [] := by
  cases l with
  | nil => simp at h
  | cons a t => simp

theorem enrich_ok_shape (env : UpstreamEnv) (rs mid : List (Option RouteRow))
    (h : enrichRowsWithVendorNames env rs = Except.ok mid) :
    ∃ nm : NameMap, mid = rs.map (Option.map (applyVendorNames nm)) := by
  unfold enrichRowsWithVendorNames at h
  by_cases he : rs.isEmpty
  · rw [if_pos he] at h
    have hrs : rs = [] := by
      cases rs with
      | nil => rfl
      | cons a t => simp at he
    subst hrs
    exact ⟨[], by simpa using (Except.ok.inj h).symm⟩
  · rw [if_neg he] at h
    cases hf : fetchVendorNameMap env (collectBns rs) with
    | error e => rw [hf] at h; cases h
    | ok nm =>
        rw [hf] at h
        exact ⟨nm, (Except.ok.inj h).symm⟩

theorem hydrate_shape (env : UpstreamEnv) (l : List (Option RouteRow)) :
    hydrateRouteRowsWithCamps env l = l.map (Option.map (hydrateRow env)) := by
  unfold hydrateRouteRowsWithCamps
  by_cases he : l.isEmpty
  · rw [if_pos he]
    cases l with
    | nil => rfl
    | cons a t => simp at he
  · rw [if_neg he]

theorem pipeline_ok_of_vendorFetch_ok (env : UpstreamEnv) (vrows : List VendorRow)
    (hv : ∀ l, env.vendorFetch l = Except.ok vrows) (rows : List (Option RouteRow)) :
    ∃ out, routeEnrichPipeline env rows = Except.ok out ∧ out.length = rows.length := by
  unfold routeEnrichPipeline
  obtain ⟨mid, hmid, hlen⟩ := enrich_ok_of_vendorFetch_ok env vrows hv
    (rows.map (applyRouteDerivedFields env.jsonParse))
  rw [hmid]
  refine ⟨_, rfl, ?_⟩
  rw [hydrateRows_length, hlen]
  simp

/-- A row carrying a vendor business number, so that a GET over it issues
the vendor-name batch fetch. -/
def c2Row : RouteRow := { vendor_business_number_1w := some "123" }

/-- An upstream world whose vendor table throws while everything else
succeeds. -/
def c2Env : UpstreamEnv :=
  { routeRows := Except.ok [some c2Row],
    vendorFetch := fun _ => Except.error "vendors down",
    campFetch := fun _ => Except.ok [],
    vendorQuery := fun _ => Except.ok [],
    vendorList := fun _ => Except.ok [],
    jsonParse := fun _ => none }

/-- C2 counterexample: with the primary fetch succeeding and one row
carrying a business number, a thrown vendor-name batch fetch propagates out
of `enrichRowsWithVendorNames` (which has no catch) up to the worker's
top-level catch, and the GET answers with an error response instead of the
primary rows. -/
theorem C2_counterexample :
    handleRouteGet c2Env (some "camp1") none none
      = RouteGetResult.errorResp "vendors down" := by
  decide

/-- C2 amended: a camp-index fetch failure is swallowed inside
`loadCampIndex`, so whenever the primary fetch and the vendor batch fetch
succeed the handler returns the ok response with one output row per input
row, whatever the camp table does; a thrown vendor batch fetch, by
contrast, propagates and produces an error response. -/
theorem C2_aux_failure_amended (env : UpstreamEnv) (camp code mode : Option String)
    (rows : List (Option RouteRow)) (vrows : List VendorRow)
    (hc : safeTrim camp ≠ "")
    (hr : env.routeRows = Except.ok rows)
    (hv : ∀ l, env.vendorFetch l = Except.ok vrows) :
    ∃ out, handleRouteGet env camp code mode = RouteGetResult.ok out ∧
      out.length = rows.length := by
  unfold handleRouteGet
  rw [if_neg hc, hr]
  obtain ⟨out, hout, hlen⟩ := pipeline_ok_of_vendorFetch_ok env vrows hv rows
  exact ⟨out, by simp [hout], hlen⟩

/-- An upstream world whose camp table throws on every fetch while the
primary and vendor fetches succeed. -/
def c2wEnv : UpstreamEnv :=
  { routeRows := Except.ok [some {}],
    vendorFetch := fun _ => Except.ok [],
    campFetch := fun _ => Except.error "camps down",
    vendorQuery := fun _ => Except.ok [],
    vendorList := fun _ => Except.ok [],
    jsonParse := fun _ => none }

/-- C2 amended witness: with the camp table down the handler still answers
ok with its one primary row. -/
theorem C2_witness :
    ∃ out, handleRouteGet c2wEnv (some "A") none none = RouteGetResult.ok out ∧
      out.length = [some ({} : RouteRow)].length :=
  C2_aux_failure_amended c2wEnv (some "A") none none [some {}] []
    (by decide) rfl (fun _ => rfl)

theorem optmap_comp_eq (jp : String → Option JsVal) (env : UpstreamEnv) (nm : NameMap)
    (a : Option RouteRow) :
    Option.map (hydrateRow env) (Option.map (applyVendorNames nm) (applyRouteDerivedFields jp a))
      = Option.map (fun r => hydrateRow env (applyVendorNames nm (applyRouteDerivedFieldsRow jp r))) a := by
  cases a with
  | none => simp [applyRouteDerivedFields]
  | some r => simp [applyRouteDerivedFields]

/-- C4: whenever the enrichment pipeline produces an output list, it has
exactly the input's length, null rows stay null in place, and the output
row at each position is the per-row enrichment of the input row at the same
position: no row is dropped or reordered by any enrichment step. -/
theorem C4_pipeline_preserves_rows (env : UpstreamEnv) (rows out : List (Option RouteRow))
    (h : routeEnrichPipeline env rows = Except.ok out) :
    out.length = rows.length ∧
    ∃ nm : NameMap,
      out = rows.map (Option.map (fun r =>
        hydrateRow env (applyVendorNames nm (applyRouteDerivedFieldsRow env.jsonParse r)))) := by
  unfold routeEnrichPipeline at h
  cases henr : enrichRowsWithVendorNames env (rows.map (applyRouteDerivedFields env.jsonParse)) with
  | error e => rw [henr] at h; cases h
  | ok mid =>
      rw [henr] at h
      obtain ⟨nm, hmid⟩ := enrich_ok_shape env _ mid henr
      have h' : Except.ok (hydrateRouteRowsWithCamps env mid) = Except.ok out := h
      have hout : out = mid.map (Option.map (hydrateRow env)) := by
        rw [hydrate_shape] at h'
        exact (Except.ok.inj h').symm
      refine ⟨?_, nm, ?_⟩
      · rw [hout, hmid]; simp
      · rw [hout, hmid]
        simp only [List.map_map]
        apply List.map_congr_left
        intro a _
        exact optmap_comp_eq env.jsonParse env nm a

/-- A fully healthy, empty upstream world. -/
def c4Env : UpstreamEnv :=
  { routeRows := Except.ok [],
    vendorFetch := fun _ => Except.ok [],
    campFetch := fun _ => Except.ok [],
    vendorQuery := fun _ => Except.ok [],
    vendorList := fun _ => Except.ok [],
    jsonParse := fun _ => none }

/-- A concrete two-element input batch with one null row. -/
def c4Rows : List (Option RouteRow) := [some {}, none]

/-- C4 witness: the preservation theorem instantiated on a concrete run of
the pipeline. -/
theorem C4_witness :
    c4Rows.length = c4Rows.length ∧
    ∃ nm : NameMap,
      c4Rows = c4Rows.map (Option.map (fun r =>
        hydrateRow c4Env (applyVendorNames nm (applyRouteDerivedFieldsRow c4Env.jsonParse r)))) :=
  C4_pipeline_preserves_rows c4Env c4Rows c4Rows rfl

theorem hydLngStep_addr (m : CampRow) (r : RouteRow) :
    (hydLngStep m r).delivery_location_address = r.delivery_location_address := by
  unfold hydLngStep
  split
  · split <;> rfl
  · rfl

theorem hydLatStep_addr (m : CampRow) (r : RouteRow) :
    (hydLatStep m r).delivery_location_address = r.delivery_location_address := by
  unfold hydLatStep
  split
  · split <;> rfl
  · rfl

theorem hydAddrStep_addr (m : CampRow) (r : RouteRow) :
    (hydAddrStep m r).delivery_location_address
      = (if safeTrim m.address ≠ "" then some (safeTrim m.address)
         else r.delivery_location_address) := by
  unfold hydAddrStep
  by_cases h : safeTrim m.address ≠ "" <;> simp [h]

theorem hydAddrStep_lat (m : CampRow) (r : RouteRow) :
    (hydAddrStep m r).delivery_location_lat = r.delivery_location_lat := by
  unfold hydAddrStep
  split <;> rfl

theorem hydAddrStep_lng (m : CampRow) (r : RouteRow) :
    (hydAddrStep m r).delivery_location_lng = r.delivery_location_lng := by
  unfold hydAddrStep
  split <;> rfl

theorem hydLngStep_lat (m : CampRow) (r : RouteRow) :
    (hydLngStep m r).delivery_location_lat = r.delivery_location_lat := by
  unfold hydLngStep
  split
  · split <;> rfl
  · rfl

theorem hydLatStep_lat (m : CampRow) (r : RouteRow) :
    (hydLatStep m r).delivery_location_lat
      = (match parseMaybeNumber m.latitude with
         | some q => if latLngUnset r.delivery_location_lat then NumVal.nnum q
                     else r.delivery_location_lat
         | none => r.delivery_location_lat) := by
  unfold hydLatStep
  split
  · split <;> simp_all
  · simp_all

theorem hydLatStep_lng (m : CampRow) (r : RouteRow) :
    (hydLatStep m r).delivery_location_lng = r.delivery_location_lng := by
  unfold hydLatStep
  split
  · split <;> rfl
  · rfl

theorem hydLngStep_lng (m : CampRow) (r : RouteRow) :
    (hydLngStep m r).delivery_location_lng
      = (match parseMaybeNumber m.longitude with
         | some q => if latLngUnset r.delivery_location_lng then NumVal.nnum q
                     else r.delivery_location_lng
         | none => r.delivery_location_lng) := by
  unfold hydLngStep
  split
  · split <;> simp_all
  · simp_all

theorem normalizeCampKey_trim_ne (s : String) (hs : jsTrim s = s) (h : s ≠ "") :
    normalizeCampKey (some s) ≠ "" := by
  unfold normalizeCampKey safeTrim jsToLower
  simp only [Option.getD_some]
  intro hk
  apply h
  have hdata := congrArg String.data hk
  rw [hs] at hdata
  simp only at hdata
  have hnil : s.data = [] := by
    have := List.map_eq_nil_iff.mp hdata
    exact this
  cases s with
  | mk l => cases hnil; rfl

/-- C3 amended: when a route row has a non-empty delivery-location name and
the camp index holds a matching record, the delivery address is overwritten
with the camp's value (reset to null first, then set whenever the camp
address trims non-empty), while the coordinates are only backfilled when
the row's own value is null or the empty string — stored non-null
coordinates are kept, not overwritten. -/
theorem C3_hydrate_amended (env : UpstreamEnv) (r : RouteRow) (c : CampRow)
    (hname : safeTrim r.delivery_location_name ≠ "")
    (hfetch : env.campFetch (safeTrim r.camp) = Except.ok [c])
    (hmatch : normalizeCampKey c.mb_camp
      = normalizeCampKey (some (safeTrim r.delivery_location_name))) :
    (hydrateRow env r).delivery_location_address
      = (if safeTrim c.address ≠ "" then some (safeTrim c.address) else none) ∧
    (hydrateRow env r).delivery_location_lat
      = (match parseMaybeNumber c.latitude with
         | some q => if latLngUnset r.delivery_location_lat then NumVal.nnum q
                     else r.delivery_location_lat
         | none => r.delivery_location_lat) ∧
    (hydrateRow env r).delivery_location_lng
      = (match parseMaybeNumber c.longitude with
         | some q => if latLngUnset r.delivery_location_lng then NumVal.nnum q
                     else r.delivery_location_lng
         | none => r.delivery_location_lng) := by
  have hkey : normalizeCampKey (some (safeTrim r.delivery_location_name)) ≠ "" := by
    apply normalizeCampKey_trim_ne
    · exact jsTrim_idem (r.delivery_location_name.getD "")
    · exact hname
  have hkc : normalizeCampKey c.mb_camp ≠ "" := by rw [hmatch]; exact hkey
  have hidx : campIndexOf [c] = [(normalizeCampKey c.mb_camp, c)] := by
    unfold campIndexOf
    simp only [List.foldl_cons, List.foldl_nil, List.find?_nil, Option.isSome_none,
      Bool.false_eq_true, or_false, List.nil_append]
    rw [if_neg hkc]
  have hrow : hydrateRow env r
      = hydrateApplyCamp c { r with delivery_location_address := none } := by
    unfold hydrateRow
    rw [if_neg hname, if_neg hkey]
    unfold loadCampIndex
    rw [hfetch]
    simp only [hidx]
    rw [List.find?_cons_of_pos _ (by simp [hmatch])]
  rw [hrow]
  unfold hydrateApplyCamp
  refine ⟨?_, ?_, ?_⟩
  · rw [hydLngStep_addr, hydLatStep_addr, hydAddrStep_addr]
  · rw [hydLngStep_lat, hydLatStep_lat, hydAddrStep_lat]
  · rw [hydLngStep_lng, hydLatStep_lng, hydAddrStep_lng]

/-- The camp record backing the C3 scenarios: camp `A`, location name
`Depot`, an address and both coordinates. -/
def c3Camp : CampRow :=
  { camp := some "A", address := some "CampAddr", latitude := NumVal.nnum 99,
    longitude := NumVal.nnum 88, mb_camp := some "Depot" }

/-- An upstream world whose camp table returns exactly `c3Camp`. -/
def c3Env : UpstreamEnv :=
  { routeRows := Except.ok [],
    vendorFetch := fun _ => Except.ok [],
    campFetch := fun _ => Except.ok [c3Camp],
    vendorQuery := fun _ => Except.ok [],
    vendorList := fun _ => Except.ok [],
    jsonParse := fun _ => none }

/-- A route row that already stores its own address and both coordinates,
with a delivery-location name matching `c3Camp` up to case. -/
def c3Row : RouteRow :=
  { camp := some "A", delivery_location_name := some "depot",
    delivery_location_address := some "OldAddr",
    delivery_location_lat := NumVal.nnum 1, delivery_location_lng := NumVal.nnum 2 }

/-- C3 counterexample: on a row whose own coordinates are non-null, camp
hydration overwrites the address but leaves both coordinates untouched —
the camp's `99`/`88` never land on the row, against the claimed overwrite. -/
theorem C3_counterexample :
    normalizeCampKey c3Camp.mb_camp
        = normalizeCampKey (some (safeTrim c3Row.delivery_location_name)) ∧
    (hydrateRow c3Env c3Row).delivery_location_address = some "CampAddr" ∧
    (hydrateRow c3Env c3Row).delivery_location_lat = NumVal.nnum 1 ∧
    (hydrateRow c3Env c3Row).delivery_location_lat ≠ NumVal.nnum 99 ∧
    (hydrateRow c3Env c3Row).delivery_location_lng = NumVal.nnum 2 ∧
    (hydrateRow c3Env c3Row).delivery_location_lng ≠ NumVal.nnum 88 := by
  decide

/-- A route row with no stored coordinates (null latitude, empty-string
longitude), to be backfilled from the camp record. -/
def c3wRow : RouteRow :=
  { camp := some "A", delivery_location_name := some "Depot",
    delivery_location_lat := NumVal.nnull,
    delivery_location_lng := NumVal.nstr "" none }

/-- C3 amended witness: the amended statement instantiated on the concrete
camp record and an unset-coordinates row, discharging every hypothesis. -/
theorem C3_amended_witness :
    (hydrateRow c3Env c3wRow).delivery_location_address
      = (if safeTrim c3Camp.address ≠ "" then some (safeTrim c3Camp.address) else none) ∧
    (hydrateRow c3Env c3wRow).delivery_location_lat
      = (match parseMaybeNumber c3Camp.latitude with
         | some q => if latLngUnset c3wRow.delivery_location_lat then NumVal.nnum q
                     else c3wRow.delivery_location_lat
         | none => c3wRow.delivery_location_lat) ∧
    (hydrateRow c3Env c3wRow).delivery_location_lng
      = (match parseMaybeNumber c3Camp.longitude with
         | some q => if latLngUnset c3wRow.delivery_location_lng then NumVal.nnum q
                     else c3wRow.delivery_location_lng
         | none => c3wRow.delivery_location_lng) :=
  C3_hydrate_amended c3Env c3wRow c3Camp (by decide) rfl (by decide)

theorem apColorStep_polygon (r : RouteRow) :
    (apColorStep r).polygon_wgs84 = r.polygon_wgs84 := by
  unfold apColorStep
  split <;> rfl

theorem apCampNameStep_polygon (r : RouteRow) :
    (apCampNameStep r).polygon_wgs84 = r.polygon_wgs84 := by
  unfold apCampNameStep
  split <;> rfl

theorem apRouteCodeStep_polygon (r : RouteRow) :
    (apRouteCodeStep r).polygon_wgs84 = r.polygon_wgs84 := by
  unfold apRouteCodeStep
  split <;> rfl

theorem apPolygonStep_of_vstr (jp : String → Option JsVal) (r : RouteRow) (s : String)
    (h : r.polygon_wgs84 = JsVal.vstr s) :
    (apPolygonStep jp r).polygon_wgs84 = parseMaybeJson jp (JsVal.vstr s) JsVal.vnull := by
  unfold apPolygonStep
  rw [h]

theorem apPolygonStep_of_vobj (jp : String → Option JsVal) (r : RouteRow) (p : Nat)
    (h : r.polygon_wgs84 = JsVal.vobj p) :
    (apPolygonStep jp r).polygon_wgs84 = JsVal.vobj p := by
  unfold apPolygonStep
  rw [h]
  exact h

theorem apSteps_vendor_fields (jp : String → Option JsVal) (r : RouteRow) :
    (applyRouteDerivedFieldsRow jp r).vendor_business_number_1w
        = r.vendor_business_number_1w ∧
    (applyRouteDerivedFieldsRow jp r).vendor_business_number
        = r.vendor_business_number ∧
    (applyRouteDerivedFieldsRow jp r).vendor_business_number_2w
        = r.vendor_business_number_2w := by
  unfold applyRouteDerivedFieldsRow apRouteCodeStep apCampNameStep apPolygonStep apColorStep
  refine ⟨?_, ?_, ?_⟩ <;> (repeat' split) <;> rfl

theorem rowBn_applyDerived (jp : String → Option JsVal) (r : RouteRow) :
    rowBn1 (applyRouteDerivedFieldsRow jp r) = rowBn1 r ∧
    rowBn2 (applyRouteDerivedFieldsRow jp r) = rowBn2 r := by
  obtain ⟨h1, h2, h3⟩ := apSteps_vendor_fields jp r
  unfold rowBn1 rowBn2
  rw [h1, h2, h3]
  exact ⟨rfl, rfl⟩

theorem collectBns_map_applyDerived (jp : String → Option JsVal)
    (rows : List (Option RouteRow)) :
    collectBns (rows.map (applyRouteDerivedFields jp)) = collectBns rows := by
  unfold collectBns
  rw [List.foldl_map]
  congr 1
  funext acc row
  cases row with
  | none => rfl
  | some r =>
      obtain ⟨hb1, hb2⟩ := rowBn_applyDerived jp r
      show (fun acc1 =>
          if rowBn2 (applyRouteDerivedFieldsRow jp r) ≠ "" then
            acc1 ++ [rowBn2 (applyRouteDerivedFieldsRow jp r)]
          else acc1)
        (if rowBn1 (applyRouteDerivedFieldsRow jp r) ≠ "" then
          acc ++ [rowBn1 (applyRouteDerivedFieldsRow jp r)]
        else acc) = _
      rw [hb1, hb2]

theorem pipeline_error_iff (env : UpstreamEnv) (rows : List (Option RouteRow)) (e : String) :
    routeEnrichPipeline env rows = Except.error e ↔
      (rows ≠ [] ∧ (buildBnSet (collectBns rows)).isEmpty = false ∧
        env.vendorFetch ((buildBnSet (collectBns rows)).take 200) = Except.error e) := by
  unfold routeEnrichPipeline enrichRowsWithVendorNames fetchVendorNameMap
  rw [collectBns_map_applyDerived]
  by_cases hre : rows.isEmpty
  · have hrows : rows = [] := by
      cases rows with
      | nil => rfl
      | cons a t => simp at hre
    subst hrows
    simp
  · have hmap : (rows.map (applyRouteDerivedFields env.jsonParse)).isEmpty = false := by
      cases rows with
      | nil => simp at hre
      | cons a t => rfl
    rw [hmap]
    simp only [Bool.false_eq_true, if_false]
    by_cases hbn : (buildBnSet (collectBns rows)).isEmpty
    · rw [if_pos hbn]
      simp [isEmpty_false_ne_nil rows hre, hbn]
    · rw [if_neg hbn]
      have hne := isEmpty_false_ne_nil rows hre
      have hbn' : (buildBnSet (collectBns rows)).isEmpty = false := by
        simpa using hbn
      cases hv : env.vendorFetch ((buildBnSet (collectBns rows)).take 200) with
      | error e' =>
          simp only [hv]
          constructor
          · intro h
            have h' : (Except.error e' : Except String (List (Option RouteRow)))
                = Except.error e := h
            have he : e' = e := Except.error.inj h'
            subst he
            exact ⟨hne, hbn', rfl⟩
          · intro h
            have he : e' = e := Except.error.inj h.2.2
            subst he
            rfl
      | ok vrows =>
          simp only [hv]
          constructor
          · intro h
            have h' : (Except.ok (hydrateRouteRowsWithCamps env
                ((rows.map (applyRouteDerivedFields env.jsonParse)).map
                  (Option.map (applyVendorNames (buildVendorNameMap vrows)))))
                : Except String (List (Option RouteRow))) = Except.error e := h
            cases h'
          · intro h
            exact Except.noConfusion h.2.2

/-- C6: on a string polygon the normalizer attempts the JSON parse — a
failed parse nulls the field (and a successful one stores the parse), a
native structure passes through untouched, and the error outcome of the
whole enrichment pipeline is independent of the JSON parser, so a parse
failure never fails the request. -/
theorem C6_parse_fallback (jp : String → Option JsVal) (r : RouteRow) (s : String) :
    (jp s = none → parseMaybeJson jp (JsVal.vstr s) JsVal.vnull = JsVal.vnull) ∧
    (∀ j, jp s = some j → parseMaybeJson jp (JsVal.vstr s) JsVal.vnull = j) ∧
    (r.polygon_wgs84 = JsVal.vstr s → jp s = none →
      (applyRouteDerivedFieldsRow jp r).polygon_wgs84 = JsVal.vnull) ∧
    (∀ p, r.polygon_wgs84 = JsVal.vobj p →
      (applyRouteDerivedFieldsRow jp r).polygon_wgs84 = JsVal.vobj p) ∧
    (∀ (env : UpstreamEnv) (rows : List (Option RouteRow)) (e : String),
      routeEnrichPipeline env rows = Except.error e ↔
        routeEnrichPipeline { env with jsonParse := jp } rows = Except.error e) := by
  refine ⟨?_, ?_, ?_, ?_, ?_⟩
  · intro h
    show (jp s).getD JsVal.vnull = JsVal.vnull
    rw [h]
    rfl
  · intro j h
    show (jp s).getD JsVal.vnull = j
    rw [h]
    rfl
  · intro hpoly h
    unfold applyRouteDerivedFieldsRow
    rw [apRouteCodeStep_polygon, apCampNameStep_polygon,
      apPolygonStep_of_vstr jp _ s (by rw [apColorStep_polygon]; exact hpoly)]
    show (jp s).getD JsVal.vnull = JsVal.vnull
    rw [h]
    rfl
  · intro p hpoly
    unfold applyRouteDerivedFieldsRow
    rw [apRouteCodeStep_polygon, apCampNameStep_polygon,
      apPolygonStep_of_vobj jp _ p (by rw [apColorStep_polygon]; exact hpoly)]
  · intro env rows e
    rw [pipeline_error_iff, pipeline_error_iff]

/-- A concrete row whose polygon slot holds a malformed JSON string. -/
def c6Row : RouteRow := { polygon_wgs84 := JsVal.vstr "not json" }

/-- A concrete row whose polygon slot holds an already-parsed structure. -/
def c6ObjRow : RouteRow := { polygon_wgs84 := JsVal.vobj 7 }

/-- C6 witness: the normalizer theorem instantiated at a failing parser, a
succeeding parser and concrete rows, discharging every hypothesis. -/
theorem C6_witness :
    parseMaybeJson (fun _ => none) (JsVal.vstr "not json") JsVal.vnull = JsVal.vnull ∧
    parseMaybeJson (fun _ => some (JsVal.vobj 3)) (JsVal.vstr "[1]") JsVal.vnull
      = JsVal.vobj 3 ∧
    (applyRouteDerivedFieldsRow (fun _ => none) c6Row).polygon_wgs84 = JsVal.vnull ∧
    (applyRouteDerivedFieldsRow (fun _ => none) c6ObjRow).polygon_wgs84 = JsVal.vobj 7 ∧
    (routeEnrichPipeline c4Env [] = Except.error "x" ↔
      routeEnrichPipeline { c4Env with jsonParse := fun _ => none } [] = Except.error "x") :=
  ⟨(C6_parse_fallback (fun _ => none) c6Row "not json").1 rfl,
   (C6_parse_fallback (fun _ => some (JsVal.vobj 3)) c6Row "[1]").2.1 (JsVal.vobj 3) rfl,
   (C6_parse_fallback (fun _ => none) c6Row "not json").2.2.1 rfl rfl,
   (C6_parse_fallback (fun _ => none) c6ObjRow "x").2.2.2.1 7 rfl,
   (C6_parse_fallback (fun _ => none) c6Row "x").2.2.2.2 c4Env [] "x"⟩

/-- The observable outcome of a `/route` DELETE (part_002): a 400
validation answer, or the upstream PATCH it issues — filtered by id or by
(camp, full_code) — together with the serialized body. -/
inductive DeleteAction where
  | badRequest (msg : String)
  | patchById (id : ℤ) (body : List (String × JsVal))
  | patchByCampCode (camp code : String) (body : List (String × JsVal))
deriving DecidableEq, Repr

/-- Model of `handleRouteDelete` from part_002 up to the upstream PATCH:
requires a numeric id or both camp and code, and always sends the
single-field body `\x7b polygon_wgs84: null \x7d`. -/
def handleRouteDelete (id : Option ℤ) (camp code : Option String) : DeleteAction :=
  match id with
  | some i => DeleteAction.patchById i [("polygon_wgs84", JsVal.vnull)]
  | none =>
      if safeTrim camp = "" ∨ safeTrim code = "" then
        DeleteAction.badRequest "id OR (camp + code) is required"
      else
        DeleteAction.patchByCampCode (safeTrim camp) (safeTrim code)
          [("polygon_wgs84", JsVal.vnull)]

/-- A stored route record, modelled as its column-to-value bindings. -/
abbrev StoredRecord := List (String × JsVal)

/-- Read one column of a stored record. -/
def recordGet (r : StoredRecord) (k : String) : Option JsVal :=
  (r.find? (fun kv => kv.1 == k)).map (fun kv => kv.2)

/-- One column update of an upstream PATCH: replace the value under the
key, or append the binding when the column was absent. -/
def recordSet (r : StoredRecord) (k : String) (v : JsVal) : StoredRecord :=
  if (r.find? (fun kv => kv.1 == k)).isSome then
    r.map (fun kv => if kv.1 == k then (k, v) else kv)
  else r ++ [(k, v)]

/-- Row semantics of the upstream PATCH (the backing store is an external
collaborator, spec section 1): exactly the fields named in the body are
set; nothing else about the row changes and the row is never removed. -/
def applyPatchBody (r : StoredRecord) (body : List (String × JsVal)) : StoredRecord :=
  body.foldl (fun acc kv => recordSet acc kv.1 kv.2) r

/-- A filtered upstream PATCH over a stored table: matched rows are updated
in place, unmatched rows untouched, no row added or removed. -/
def patchWhere (p : StoredRecord → Bool) (body : List (String × JsVal))
    (store : List StoredRecord) : List StoredRecord :=
  store.map (fun r => if p r then applyPatchBody r body else r)

theorem find?_map_set (r : StoredRecord) (k : String) (v : JsVal) :
    (r.map (fun kv => if kv.1 == k then (k, v) else kv)).find? (fun kv => kv.1 == k)
      = if (r.find? (fun kv => kv.1 == k)).isSome then some (k, v) else none := by
  induction r with
  | nil => rfl
  | cons a t ih =>
      by_cases h : (a.1 == k) = true
      · rw [List.map_cons, if_pos h,
          @List.find?_cons_of_pos _ (fun kv => kv.1 == k) ((k, v) : String × JsVal)
            _ (by simp),
          @List.find?_cons_of_pos _ (fun kv => kv.1 == k) a _ h]
        simp
      · rw [List.map_cons, if_neg h,
          @List.find?_cons_of_neg _ (fun kv => kv.1 == k) a _ h,
          @List.find?_cons_of_neg _ (fun kv => kv.1 == k) a _ h, ih]

theorem find?_map_set_other (r : StoredRecord) (k : String) (v : JsVal) (q : String)
    (hq : q ≠ k) :
    (r.map (fun kv => if kv.1 == k then (k, v) else kv)).find? (fun kv => kv.1 == q)
      = r.find? (fun kv => kv.1 == q) := by
  induction r with
  | nil => rfl
  | cons a t ih =>
      have hkq : k ≠ q := Ne.symm hq
      by_cases h : (a.1 == k) = true
      · have ha : a.1 = k := by simpa using h
        rw [List.map_cons, if_pos h,
          @List.find?_cons_of_neg _ (fun kv => kv.1 == q) ((k, v) : String × JsVal)
            _ (by simp [hkq]),
          @List.find?_cons_of_neg _ (fun kv => kv.1 == q) a _ (by simp [ha, hkq]), ih]
      · by_cases h2 : (a.1 == q) = true
        · rw [List.map_cons, if_neg h,
            @List.find?_cons_of_pos _ (fun kv => kv.1 == q) a _ h2,
            @List.find?_cons_of_pos _ (fun kv => kv.1 == q) a _ h2]
        · rw [List.map_cons, if_neg h,
            @List.find?_cons_of_neg _ (fun kv => kv.1 == q) a _ h2,
            @List.find?_cons_of_neg _ (fun kv => kv.1 == q) a _ h2, ih]

theorem recordGet_set_self (r : StoredRecord) (k : String) (v : JsVal) :
    recordGet (recordSet r k v) k = some v := by
  unfold recordGet recordSet
  by_cases h : (r.find? (fun kv => kv.1 == k)).isSome
  · rw [if_pos h, find?_map_set, if_pos h]
    rfl
  · rw [if_neg h]
    have hnone : r.find? (fun kv => kv.1 == k) = none := by
      cases hf : r.find? (fun kv => kv.1 == k) with
      | none => rfl
      | some x => rw [hf] at h; simp at h
    rw [List.find?_append, hnone]
    simp

theorem recordGet_set_other (r : StoredRecord) (k : String) (v : JsVal) (q : String)
    (hq : q ≠ k) :
    recordGet (recordSet r k v) q = recordGet r q := by
  unfold recordGet recordSet
  by_cases h : (r.find? (fun kv => kv.1 == k)).isSome
  · rw [if_pos h, find?_map_set_other r k v q hq]
  · rw [if_neg h, List.find?_append]
    have hnone : ([((k, v) : String × JsVal)].find? (fun kv => kv.1 == q)) = none := by
      simp [Ne.symm hq]
    rw [hnone]
    cases r.find? (fun kv => kv.1 == q) <;> rfl

/-- C5: a validated DELETE issues a PATCH whose body is exactly the single
field `polygon_wgs84 = null`; under the upstream's field-wise PATCH
semantics that body nulls the polygon and leaves every other column (in
particular `camp` and `full_code`, the keys of a subsequent GET filter)
unchanged, and patching a table never changes its row count, so the record
persists. -/
theorem C5_soft_delete (camp code : Option String) (i : ℤ)
    (hcamp : safeTrim camp ≠ "") (hcode : safeTrim code ≠ "") :
    handleRouteDelete (some i) camp code
        = DeleteAction.patchById i [("polygon_wgs84", JsVal.vnull)] ∧
    handleRouteDelete none camp code
        = DeleteAction.patchByCampCode (safeTrim camp) (safeTrim code)
            [("polygon_wgs84", JsVal.vnull)] ∧
    (∀ r : StoredRecord,
      recordGet (applyPatchBody r [("polygon_wgs84", JsVal.vnull)]) "polygon_wgs84"
          = some JsVal.vnull ∧
      ∀ k, k ≠ "polygon_wgs84" →
        recordGet (applyPatchBody r [("polygon_wgs84", JsVal.vnull)]) k = recordGet r k) ∧
    (∀ (p : StoredRecord → Bool) (store : List StoredRecord),
      (patchWhere p [("polygon_wgs84", JsVal.vnull)] store).length = store.length) := by
  refine ⟨rfl, ?_, ?_, ?_⟩
  · unfold handleRouteDelete
    rw [if_neg (by push_neg; exact ⟨hcamp, hcode⟩)]
  · intro r
    have hbody : applyPatchBody r [("polygon_wgs84", JsVal.vnull)]
        = recordSet r "polygon_wgs84" JsVal.vnull := rfl
    rw [hbody]
    exact ⟨recordGet_set_self r _ _, fun k hk => recordGet_set_other r _ _ k hk⟩
  · intro p store
    unfold patchWhere
    simp

/-- C5 witness: the soft-delete theorem instantiated at a concrete id,
camp and code, and evaluated on a concrete stored record. -/
theorem C5_witness :
    handleRouteDelete (some 7) (some "A") (some "101")
        = DeleteAction.patchById 7 [("polygon_wgs84", JsVal.vnull)] ∧
    handleRouteDelete none (some "A") (some "101")
        = DeleteAction.patchByCampCode (safeTrim (some "A")) (safeTrim (some "101"))
            [("polygon_wgs84", JsVal.vnull)] ∧
    (∀ r : StoredRecord,
      recordGet (applyPatchBody r [("polygon_wgs84", JsVal.vnull)]) "polygon_wgs84"
          = some JsVal.vnull ∧
      ∀ k, k ≠ "polygon_wgs84" →
        recordGet (applyPatchBody r [("polygon_wgs84", JsVal.vnull)]) k = recordGet r k) ∧
    (∀ (p : StoredRecord → Bool) (store : List StoredRecord),
      (patchWhere p [("polygon_wgs84", JsVal.vnull)] store).length = store.length) :=
  C5_soft_delete (some "A") (some "101") 7 (by decide) (by decide)

/-- JS `String.prototype.includes` on the underlying character lists. -/
def strContainsList (q : List Char) : List Char → Bool
  | [] => q.isEmpty
  | c :: t => q.isPrefixOf (c :: t) || strContainsList q t

/-- JS `s.includes(q)`. -/
def jsIncludes (s q : String) : Bool := strContainsList q.data s.data

/-- JS `s.startsWith(q)` on the underlying character lists. -/
def jsStartsWith (s q : String) : Bool := q.data.isPrefixOf s.data

/-- Model of `scoreVendorSearch` from part_002: exact name 120, exact
business number 115, name head match 100, business-number head match 95,
name substring 80, business-number substring 75, otherwise 0, first
matching tier winning; all comparisons on trimmed lowercased values. -/
def scoreVendorSearch (row : VendorRow) (qLower : String) : Nat :=
  if qLower = "" then 0
  else if jsToLower (safeTrim row.name) = qLower then 120
  else if jsToLower (safeTrim row.business_number) = qLower then 115
  else if jsStartsWith (jsToLower (safeTrim row.name)) qLower then 100
  else if jsStartsWith (jsToLower (safeTrim row.business_number)) qLower then 95
  else if jsIncludes (jsToLower (safeTrim row.name)) qLower then 80
  else if jsIncludes (jsToLower (safeTrim row.business_number)) qLower then 75
  else 0

/-- Model of `vendorDedupeKey` from part_002: the id when present,
otherwise the composite business-number-and-name key. -/
def vendorDedupeKey (row : VendorRow) : String :=
  match row.id with
  | some i => "id:" ++ toString i
  | none => "key:" ++ safeTrim row.business_number ++ "|" ++ safeTrim row.name

/-- The limit computation of `handleVendorsGet` (part_002):
`Number.isFinite(limitRaw) && limitRaw > 0` picks
`Math.min(Math.floor(limitRaw), 200)`, anything else (an absent parameter,
NaN, a non-positive number — modelled by `none` or a non-positive rational)
falls back to 50. -/
def effectiveLimit (limitRaw : Option ℚ) : Nat :=
  match limitRaw with
  | none => 50
  | some x => if 0 < x then min (⌊x⌋).toNat 200 else 50

/-- The four search queries of `handleVendorsGet` (part_002), in source
order: exact name, exact business number, name wildcard, business-number
wildcard. -/
def vendorQueries (q : String) : List (String × String) :=
  [("name", "eq." ++ q), ("business_number", "eq." ++ q),
   ("name", "ilike.*" ++ q ++ "*"), ("business_number", "ilike.*" ++ q ++ "*")]

/-- The merge loop of `handleVendorsGet` (part_002): each query's rows in
order, per-query failures skipped (each query sits in its own catch), the
first row per dedupe key kept. -/
def mergeVendorRows (env : UpstreamEnv) (q : String) : List VendorRow :=
  (vendorQueries q).foldl (fun merged fv =>
    match env.vendorQuery fv with
    | Except.error _ => merged
    | Except.ok rows =>
        rows.foldl (fun m row =>
          if m.any (fun x => vendorDedupeKey x == vendorDedupeKey row) then m
          else m ++ [row]) merged) []

/-- Descending match-score order on vendor rows for a fixed query. -/
def scoreGE (qLower : String) (a b : VendorRow) : Prop :=
  scoreVendorSearch b qLower ≤ scoreVendorSearch a qLower

instance (qLower : String) : DecidableRel (scoreGE qLower) :=
  fun _ _ => inferInstanceAs (Decidable (_ ≤ _))

instance (qLower : String) : IsTotal VendorRow (scoreGE qLower) :=
  ⟨fun a b => Nat.le_total (scoreVendorSearch b qLower) (scoreVendorSearch a qLower)⟩

instance (qLower : String) : IsTrans VendorRow (scoreGE qLower) :=
  ⟨fun _ _ _ h1 h2 => Nat.le_trans h2 h1⟩

/-- Model of `handleVendorsGet` from part_002: without a query a plain
listing whose upstream error propagates; with a query the merged,
deduplicated search results sorted by score descending (the JS comparator
sort modelled by an insertion sort over the same order) and cut to the
effective limit. -/
def handleVendorsGet (env : UpstreamEnv) (q : Option String) (limitRaw : Option ℚ) :
    Except String (List VendorRow) :=
  if safeTrim q = "" then env.vendorList (effectiveLimit limitRaw)
  else
    Except.ok ((List.insertionSort (scoreGE (jsToLower (safeTrim q)))
        (mergeVendorRows env (safeTrim q))).take (effectiveLimit limitRaw))

theorem jsToLower_ne_empty (s : String) (h : s ≠ "") : jsToLower s ≠ "" := by
  unfold jsToLower
  intro hk
  apply h
  have hdata := congrArg String.data hk
  simp only at hdata
  have hnil : s.data = [] := List.map_eq_nil_iff.mp hdata
  cases s with
  | mk l => cases hnil; rfl

theorem dedupe_fold_nodup (rows m : List VendorRow)
    (hm : (m.map vendorDedupeKey).Nodup) :
    ((rows.foldl (fun m row =>
        if m.any (fun x => vendorDedupeKey x == vendorDedupeKey row) then m
        else m ++ [row]) m).map vendorDedupeKey).Nodup := by
  induction rows generalizing m with
  | nil => exact hm
  | cons r t ih =>
      rw [List.foldl_cons]
      by_cases h : m.any (fun x => vendorDedupeKey x == vendorDedupeKey r) = true
      · rw [if_pos h]
        exact ih m hm
      · rw [if_neg h]
        apply ih
        rw [List.map_append, List.nodup_append]
        refine ⟨hm, by simp, ?_⟩
        intro a ha hb
        simp only [List.map_cons, List.map_nil, List.mem_singleton] at hb
        subst hb
        simp only [List.any_eq_true, not_exists, not_and] at h
        obtain ⟨x, hx, hxa⟩ := List.mem_map.mp ha
        have := h x hx
        rw [hxa] at this
        simp at this

theorem mergeVendorRows_nodup (env : UpstreamEnv) (q : String) :
    ((mergeVendorRows env q).map vendorDedupeKey).Nodup := by
  unfold mergeVendorRows
  have haux : ∀ (qs : List (String × String)) (m : List VendorRow),
      (m.map vendorDedupeKey).Nodup →
      ((qs.foldl (fun merged fv =>
          match env.vendorQuery fv with
          | Except.error _ => merged
          | Except.ok rows =>
              rows.foldl (fun m row =>
                if m.any (fun x => vendorDedupeKey x == vendorDedupeKey row) then m
                else m ++ [row]) merged) m).map vendorDedupeKey).Nodup := by
    intro qs
    induction qs with
    | nil => intro m hm; exact hm
    | cons fv t ih =>
        intro m hm
        rw [List.foldl_cons]
        cases henv : env.vendorQuery fv with
        | error e => exact ih m hm
        | ok rows => exact ih _ (dedupe_fold_nodup rows m hm)
  exact haux (vendorQueries q) [] (by simp)

/-- C7: with a non-empty query the vendor search result is sorted by the
match score descending, holds at most the effective limit many rows, and
carries pairwise distinct dedupe keys; the effective limit defaults to 50
on an absent/invalid/non-positive parameter and never exceeds 200; and the
score puts an exact name match (120) strictly above a head (prefix-style)
match (100), and that strictly above a substring match (80). -/
theorem C7_vendor_search (env : UpstreamEnv) (q : Option String) (limitRaw : Option ℚ)
    (out : List VendorRow)
    (hq : safeTrim q ≠ "")
    (hout : handleVendorsGet env q limitRaw = Except.ok out) :
    out.Pairwise (scoreGE (jsToLower (safeTrim q))) ∧
    out.length ≤ effectiveLimit limitRaw ∧
    (out.map vendorDedupeKey).Nodup ∧
    effectiveLimit none = 50 ∧
    (∀ x : ℚ, x ≤ 0 → effectiveLimit (some x) = 50) ∧
    (∀ lr, effectiveLimit lr ≤ 200) ∧
    (∀ r : VendorRow, jsToLower (safeTrim r.name) = jsToLower (safeTrim q) →
      scoreVendorSearch r (jsToLower (safeTrim q)) = 120) ∧
    (∀ r : VendorRow, jsToLower (safeTrim r.name) ≠ jsToLower (safeTrim q) →
      jsToLower (safeTrim r.business_number) ≠ jsToLower (safeTrim q) →
      jsStartsWith (jsToLower (safeTrim r.name)) (jsToLower (safeTrim q)) = true →
      scoreVendorSearch r (jsToLower (safeTrim q)) = 100) ∧
    (∀ r : VendorRow, jsToLower (safeTrim r.name) ≠ jsToLower (safeTrim q) →
      jsToLower (safeTrim r.business_number) ≠ jsToLower (safeTrim q) →
      jsStartsWith (jsToLower (safeTrim r.name)) (jsToLower (safeTrim q)) = false →
      jsStartsWith (jsToLower (safeTrim r.business_number)) (jsToLower (safeTrim q)) = false →
      jsIncludes (jsToLower (safeTrim r.name)) (jsToLower (safeTrim q)) = true →
      scoreVendorSearch r (jsToLower (safeTrim q)) = 80) ∧
    ((120 : Nat) > 100 ∧ (100 : Nat) > 80) := by
  have hql : jsToLower (safeTrim q) ≠ "" := jsToLower_ne_empty _ hq
  have houteq : out = (List.insertionSort (scoreGE (jsToLower (safeTrim q)))
      (mergeVendorRows env (safeTrim q))).take (effectiveLimit limitRaw) := by
    unfold handleVendorsGet at hout
    rw [if_neg hq] at hout
    exact (Except.ok.inj hout).symm
  refine ⟨?_, ?_, ?_, rfl, ?_, ?_, ?_, ?_, ?_, by omega⟩
  · rw [houteq]
    exact (List.sorted_insertionSort (scoreGE (jsToLower (safeTrim q))) _).sublist
      (List.take_sublist _ _)
  · rw [houteq]
    exact List.length_take_le _ _
  · rw [houteq, List.map_take]
    have hbig : ((List.insertionSort (scoreGE (jsToLower (safeTrim q)))
        (mergeVendorRows env (safeTrim q))).map vendorDedupeKey).Nodup := by
      have hperm := (List.perm_insertionSort (scoreGE (jsToLower (safeTrim q)))
        (mergeVendorRows env (safeTrim q))).map vendorDedupeKey
      exact hperm.nodup_iff.mpr (mergeVendorRows_nodup env (safeTrim q))
    exact List.Nodup.sublist (List.take_sublist _ _) hbig
  · intro x hx
    show (if 0 < x then min (⌊x⌋).toNat 200 else 50) = 50
    rw [if_neg (not_lt.mpr hx)]
  · intro lr
    cases lr with
    | none => show (50 : Nat) ≤ 200; omega
    | some x =>
        show (if 0 < x then min (⌊x⌋).toNat 200 else 50) ≤ 200
        by_cases hx : 0 < x
        · rw [if_pos hx]
          exact Nat.min_le_right _ _
        · rw [if_neg hx]
          omega
  · intro r hr
    unfold scoreVendorSearch
    rw [if_neg hql, if_pos hr]
  · intro r h1 h2 h3
    unfold scoreVendorSearch
    rw [if_neg hql, if_neg h1, if_neg h2, if_pos h3]
  · intro r h1 h2 h3 h4 h5
    unfold scoreVendorSearch
    rw [if_neg hql, if_neg h1, if_neg h2,
      if_neg (by rw [h3]; exact Bool.false_ne_true),
      if_neg (by rw [h4]; exact Bool.false_ne_true), if_pos h5]

/-- The spec example's exact-match vendor. -/
def acmeRow : VendorRow := { id := some 1, name := some "Acme" }

/-- The spec example's head-match vendor. -/
def acmeCorpRow : VendorRow := { id := some 2, name := some "Acme Corp" }

/-- An upstream world whose vendor search returns the two example rows. -/
def c7Env : UpstreamEnv :=
  { routeRows := Except.ok [],
    vendorFetch := fun _ => Except.ok [],
    campFetch := fun _ => Except.ok [],
    vendorQuery := fun _ => Except.ok [acmeRow, acmeCorpRow],
    vendorList := fun _ => Except.ok [],
    jsonParse := fun _ => none }

/-- C7 witness: the search theorem instantiated on the spec's `Acme` versus
`Acme Corp` example — the exact match is ranked first — with every
hypothesis discharged on the concrete run. -/
theorem C7_witness :
    ([acmeRow, acmeCorpRow] : List VendorRow).Pairwise
        (scoreGE (jsToLower (safeTrim (some "Acme")))) ∧
    ([acmeRow, acmeCorpRow] : List VendorRow).length ≤ effectiveLimit none ∧
    (([acmeRow, acmeCorpRow] : List VendorRow).map vendorDedupeKey).Nodup ∧
    effectiveLimit none = 50 ∧
    (∀ x : ℚ, x ≤ 0 → effectiveLimit (some x) = 50) ∧
    (∀ lr, effectiveLimit lr ≤ 200) ∧
    (∀ r : VendorRow, jsToLower (safeTrim r.name) = jsToLower (safeTrim (some "Acme")) →
      scoreVendorSearch r (jsToLower (safeTrim (some "Acme"))) = 120) ∧
    (∀ r : VendorRow, jsToLower (safeTrim r.name) ≠ jsToLower (safeTrim (some "Acme")) →
      jsToLower (safeTrim r.business_number) ≠ jsToLower (safeTrim (some "Acme")) →
      jsStartsWith (jsToLower (safeTrim r.name)) (jsToLower (safeTrim (some "Acme"))) = true →
      scoreVendorSearch r (jsToLower (safeTrim (some "Acme"))) = 100) ∧
    (∀ r : VendorRow, jsToLower (safeTrim r.name) ≠ jsToLower (safeTrim (some "Acme")) →
      jsToLower (safeTrim r.business_number) ≠ jsToLower (safeTrim (some "Acme")) →
      jsStartsWith (jsToLower (safeTrim r.name)) (jsToLower (safeTrim (some "Acme"))) = false →
      jsStartsWith (jsToLower (safeTrim r.business_number))
        (jsToLower (safeTrim (some "Acme"))) = false →
      jsIncludes (jsToLower (safeTrim r.name)) (jsToLower (safeTrim (some "Acme"))) = true →
      scoreVendorSearch r (jsToLower (safeTrim (some "Acme"))) = 80) ∧
    ((120 : Nat) > 100 ∧ (100 : Nat) > 80) :=
  C7_vendor_search c7Env (some "Acme") none [acmeRow, acmeCorpRow] (by decide) (by rfl)

end Maroowell
